import Mathlib

/-!
Verification of the RFID indoor-positioning backend (fingerprint pipeline).

The definitions below are a shallow embedding of the Python sources:
numeric values are modelled as exact rationals, the floating "missing
value" (NaN) is modelled as `Option ℚ` with `none` for an unset cell,
`numpy.around(x, 4)` and Python `round(x, 4)` are modelled by `round4`
(round half to even at 4 decimal places), and the population standard
deviation is modelled by the (rounded) exact square root. Functions keep
the source names: `sliding_window_features`, `train_rf_models`,
`evaluate_position`, `load_data_from_db` (src/services/positioning.py),
`list_tags` (src/repository.py), and the `Tag` constructor checks of
src/models.py.
-/

namespace RFID

/-! ## Numeric primitives -/

/-- Round half to even to an integer, the rounding used by `numpy.around`
and by Python's builtin `round`. -/
def roundHE (q : ℚ) : ℤ :=
  let f := ⌊q⌋
  if q - f < 1/2 then f
  else if q - f = 1/2 then (if f % 2 = 0 then f else f + 1)
  else f + 1

/-- `numpy.around(x, 4)`: round half to even at 4 decimal places. -/
def round4 (q : ℚ) : ℚ := (roundHE (q * 10000) : ℚ) / 10000

/-- Floor of the square root of a nonnegative rational. -/
def sqrtFloorQ (r : ℚ) : ℕ := Nat.sqrt (r.num.toNat * r.den) / r.den

/-- Round half to even of the square root of a nonnegative rational. -/
def sqrtHE (r : ℚ) : ℕ :=
  let f := sqrtFloorQ r
  if r < ((f : ℚ) + 1/2)^2 then f
  else if r = ((f : ℚ) + 1/2)^2 then (if f % 2 = 0 then f else f + 1)
  else f + 1

/-- Square root of a nonnegative rational, rounded half to even at 4
decimal places (the value `numpy.around(numpy.sqrt v, 4)` denotes). -/
def sqrt4 (v : ℚ) : ℚ := (sqrtHE (v * 10^8) : ℚ) / 10^4

/-- Lexicographic order on code-point lists, the order Python applies
when comparing strings (and hence the order pandas sorts tag ids by). -/
def strListLE : List Char → List Char → Bool
  | [], _ => true
  | _ :: _, [] => false
  | a :: as, b :: bs =>
    if a.toNat < b.toNat then true
    else if b.toNat < a.toNat then false
    else strListLE as bs

/-- Python string comparison (lexicographic on code points). -/
def strLE (a b : String) : Bool := strListLE a.data b.data

theorem strListLE_total (as : List Char) : ∀ bs, strListLE as bs = true ∨ strListLE bs as = true := by
  induction as with
  | nil => intro bs; left; rfl
  | cons a as ih =>
    intro bs
    cases bs with
    | nil => right; rfl
    | cons b bs =>
      by_cases h1 : a.toNat < b.toNat
      · left; simp [strListLE, h1]
      · by_cases h2 : b.toNat < a.toNat
        · right; simp [strListLE, h2]
        · rcases ih bs with h | h
          · left; simp [strListLE, h1, h2, h]
          · right; simp [strListLE, h1, h2, h]

theorem strListLE_trans (as : List Char) :
    ∀ bs cs, strListLE as bs = true → strListLE bs cs = true → strListLE as cs = true := by
  induction as with
  | nil => intro bs cs _ _; rfl
  | cons a as ih =>
    intro bs cs h1 h2
    cases bs with
    | nil => simp [strListLE] at h1
    | cons b bs =>
      cases cs with
      | nil => simp [strListLE] at h2
      | cons c cs =>
        by_cases hab : a.toNat < b.toNat
        · by_cases hbc : b.toNat < c.toNat
          · simp [strListLE, show a.toNat < c.toNat from hab.trans hbc]
          · by_cases hcb : c.toNat < b.toNat
            · simp [strListLE, hbc, hcb] at h2
            · simp [strListLE, show a.toNat < c.toNat by omega]
        · by_cases hba : b.toNat < a.toNat
          · simp [strListLE, hab, hba] at h1
          · have h1b : strListLE as bs = true := by simpa [strListLE, hab, hba] using h1
            by_cases hbc : b.toNat < c.toNat
            · simp [strListLE, show a.toNat < c.toNat by omega]
            · by_cases hcb : c.toNat < b.toNat
              · simp [strListLE, hbc, hcb] at h2
              · have h2b : strListLE bs cs = true := by simpa [strListLE, hbc, hcb] using h2
                simp [strListLE, show ¬ a.toNat < c.toNat by omega,
                  show ¬ c.toNat < a.toNat by omega, ih bs cs h1b h2b]

theorem strLE_total (a b : String) : strLE a b = true ∨ strLE b a = true :=
  strListLE_total a.data b.data

theorem strLE_trans (a b c : String) (h1 : strLE a b = true) (h2 : strLE b c = true) :
    strLE a c = true :=
  strListLE_trans a.data b.data c.data h1 h2

/-- `numpy.mean` of a list of values. -/
def meanQ (xs : List ℚ) : ℚ := xs.sum / (xs.length : ℚ)

/-- `numpy.min` of a list of values (0 on the empty list, unreachable). -/
def minQ : List ℚ → ℚ
  | [] => 0
  | x :: xs => xs.foldl min x

/-- `numpy.max` of a list of values (0 on the empty list, unreachable). -/
def maxQ : List ℚ → ℚ
  | [] => 0
  | x :: xs => xs.foldl max x

/-- Population variance, `numpy.var`. -/
def popVar (xs : List ℚ) : ℚ := meanQ (xs.map (fun x => (x - meanQ xs)^2))

/-- Population standard deviation `numpy.std`, rounded at 4 decimals
(the extractor only ever stores it through `round4`, which is idempotent
on 4-decimal values, so this is the stored value). -/
def stdQ (xs : List ℚ) : ℚ := sqrt4 (popVar xs)

/-! ## Data model of the pipeline rows -/

/-- One assembled fingerprint row of the base DataFrame built by
`load_data_from_db`: per-antenna signal (`rssi_antenna1..k`) and
read-count (`rc_antenna1..k`) cells, an unset cell (NaN) being `none`,
plus the merged true coordinates. `read` is the timestamp. -/
structure FRow where
  tagId : String
  read : ℕ
  rssi : List (Option ℚ)
  rc : List (Option ℚ)
  true_x : Option ℚ
  true_y : Option ℚ
  deriving DecidableEq, Repr

instance : Inhabited FRow := ⟨⟨"", 0, [], [], none, none⟩⟩

/-- The four per-window statistic vectors (one entry per base column,
layout `rssi_antenna1..k, rc_antenna1..k`). -/
structure StatsVec where
  avg : List (Option ℚ)
  min : List (Option ℚ)
  max : List (Option ℚ)
  stddev : List (Option ℚ)
  deriving DecidableEq, Repr

/-- A feature row: the original fingerprint row plus its statistics. -/
structure FeatRow where
  row : FRow
  stats : StatsVec
  deriving DecidableEq, Repr

instance : Inhabited FeatRow := ⟨⟨default, ⟨[], [], [], []⟩⟩⟩

/-! ## WindowFeatureExtractor (`sliding_window_features`) -/

/-- Column `c` of a window, over the base columns `rssi ++ rc`
(`df_tag.loc[..., rssi_cols+rc_cols]`); a column missing from a row
reads as unset. -/
def colVals (c : ℕ) (block : List FRow) : List (Option ℚ) :=
  block.map (fun r => (r.rssi ++ r.rc).getD c none)

/-- One statistic of one window column, as numpy computes it: any NaN in
the column (or an empty column) makes the result NaN; otherwise the
statistic of the values, rounded by `numpy.around(_, 4)`. -/
def liftStat (f : List ℚ → ℚ) (col : List (Option ℚ)) : Option ℚ :=
  if col.isEmpty then none
  else if col.contains none then none
  else some (round4 (f col.reduceOption))

/-- The statistics dictionary computed for one window at
positioning.py:87-88 and 96-97: `avg`, `min`, `max`, `stddev` of every
base column, `k` being the antenna count. -/
def windowStats (k : ℕ) (block : List FRow) : StatsVec where
  avg := (List.range (2*k)).map (fun c => liftStat meanQ (colVals c block))
  min := (List.range (2*k)).map (fun c => liftStat minQ (colVals c block))
  max := (List.range (2*k)).map (fun c => liftStat maxQ (colVals c block))
  stddev := (List.range (2*k)).map (fun c => liftStat stdQ (colVals c block))

/-- Per-tag body of `sliding_window_features` (positioning.py:82-99):
rows `0..min(W0,n)-1` all receive the statistics of the fixed warm-up
block; each row `i ∈ [W0, n-1]` receives the statistics of its trailing
window `[max(0, i-W+1), i]`. -/
def tagFeatures (W0 W k : ℕ) (rows : List FRow) : List FeatRow :=
  let n := rows.length
  let warm := windowStats k (rows.take (Nat.min W0 n))
  (List.range n).map (fun i =>
    if i < Nat.min W0 n then ⟨rows.getD i default, warm⟩
    else
      let beg := i + 1 - W
      ⟨rows.getD i default, windowStats k ((rows.drop beg).take (i + 1 - beg))⟩)

/-- Final output order of the extractor: by timestamp (`read`) first,
then by tag id (`sort_values(by=['read','TagID'])`). -/
def rowLE (a b : FeatRow) : Prop :=
  a.row.read < b.row.read ∨ (a.row.read = b.row.read ∧ strLE a.row.tagId b.row.tagId = true)

instance : DecidableRel rowLE := fun a b => by
  unfold rowLE; infer_instance

instance : IsTotal FeatRow rowLE := by
  constructor
  intro a b
  unfold rowLE
  rcases Nat.lt_trichotomy a.row.read b.row.read with h | h | h
  · exact Or.inl (Or.inl h)
  · rcases strLE_total a.row.tagId b.row.tagId with h2 | h2
    · exact Or.inl (Or.inr ⟨h, h2⟩)
    · exact Or.inr (Or.inr ⟨h.symm, h2⟩)
  · exact Or.inr (Or.inl h)

instance : IsTrans FeatRow rowLE := by
  constructor
  intro a b c hab hbc
  unfold rowLE at *
  rcases hab with h1 | ⟨e1, l1⟩
  · rcases hbc with h2 | ⟨e2, _⟩
    · exact Or.inl (h1.trans h2)
    · exact Or.inl (e2 ▸ h1)
  · rcases hbc with h2 | ⟨e2, l2⟩
    · exact Or.inl (e1 ▸ h2)
    · exact Or.inr ⟨e1.trans e2, strLE_trans _ _ _ l1 l2⟩

/-- `numpy.unique`: the sorted list of distinct values. -/
def uniqueSorted (l : List String) : List String :=
  (l.insertionSort (fun a b => strLE a b = true)).dedup

/-- `sliding_window_features` (positioning.py:67-109): process each tag
of `numpy.unique(dbase['TagID'])` in order, concatenate, then sort the
result by `(read, TagID)`. `k` is the antenna count derived from the
frame's `rssi_antenna*` columns. -/
def sliding_window_features (k : ℕ) (dbase : List FRow) (W0 W : ℕ) : List FeatRow :=
  let tags := uniqueSorted (dbase.map (fun r => r.tagId))
  let newdbase := (tags.map (fun t => tagFeatures W0 W k (dbase.filter (fun r => r.tagId == t)))).flatten
  newdbase.insertionSort rowLE

/-! ## Column layout of the final feature frame

After the extractor moves `TagID`, `read`, `true_x`, `true_y` to the end
(positioning.py:102-106), the frame's columns are: the `10k` numeric
feature columns (raw `rssi`/`rc`, then `avg`, `min`, `max`, `stddev`
blocks), followed by the four metadata columns. `iloc[:, :m]` slices
this layout, so a cell can be a number (possibly unset), the tag-id
string, or the timestamp. -/

/-- One cell of the final feature frame. -/
inductive Cell where
  | num (q : Option ℚ)
  | str (s : String)
  | time (t : ℕ)
  deriving DecidableEq, Repr

/-- The `10k` numeric feature cells of a row, in column order. -/
def featCells (fr : FeatRow) : List (Option ℚ) :=
  fr.row.rssi ++ fr.row.rc ++ fr.stats.avg ++ fr.stats.min ++ fr.stats.max ++ fr.stats.stddev

/-- The full cell list of a row of the final feature frame, metadata
columns trailing. -/
def rowCells (fr : FeatRow) : List Cell :=
  (featCells fr).map Cell.num ++
    [Cell.str fr.row.tagId, Cell.time fr.row.read, Cell.num fr.row.true_x, Cell.num fr.row.true_y]

/-! ## CoordinateModelTrainer (`train_rf_models`) -/

/-- Whether a cell is a set numeric value (what the regressor accepts). -/
def cellNum : Cell → Bool
  | .num (some _) => true
  | _ => false

/-- Modelled from the spec: the regressor is an external capability
(`RandomForestRegressor.fit` in the source, a library outside this
repository); per the contract of §4.3/§7 its `fit` rejects an empty
sample set, non-numeric or unset feature cells, and unset labels, and
the error is surfaced to the caller (the source installs no handler). -/
def fit (X : List (List Cell)) (y : List (Option ℚ)) : Except String Unit :=
  if X.isEmpty then Except.error ("found array with 0 samples")
  else if !(X.all (fun row => row.all cellNum)) then Except.error ("input contains non-numeric or NaN values")
  else if !(y.all (fun v => v.isSome)) then Except.error ("labels contain NaN values")
  else Except.ok ()

/-- `train_rf_models` (positioning.py:112-129): restrict to reference
tags, take the first `num_features` columns of the frame as `X`
(`iloc` silently clamps past the end), and fit the X- and Y-regressors
on the true coordinates. -/
def train_rf_models (feature_df : List FeatRow) (reference_tags : List String)
    (num_features : ℕ) : Except String Unit :=
  let landmarc := feature_df.filter (fun fr => reference_tags.contains fr.row.tagId)
  let X := landmarc.map (fun fr => (rowCells fr).take num_features)
  let yx := landmarc.map (fun fr => fr.row.true_x)
  let yy := landmarc.map (fun fr => fr.row.true_y)
  (fit X yx).bind (fun _ => fit X yy)

/-! ## PositionEvaluator (`evaluate_position`) -/

/-- One per-tag error-summary record of the evaluator's output frame. -/
structure SummaryRec where
  tagId : String
  mae_x : ℚ
  mae_y : ℚ
  mae_avg : ℚ
  deriving DecidableEq, Repr

/-- Modelled from the spec: `sklearn.metrics.mean_absolute_error`
(a library outside this repository) rejects unset (NaN) or empty label
arrays and otherwise returns the mean absolute difference. -/
def mean_absolute_error (y_true : List (Option ℚ)) (y_pred : List ℚ) : Except String ℚ :=
  if y_true.contains none then Except.error ("Input contains NaN")
  else if y_true.isEmpty then Except.error ("found array with 0 samples")
  else Except.ok (meanQ ((y_true.reduceOption.zip y_pred).map (fun p => |p.1 - p.2|)))

/-- Body of the `evaluate_position` loop for one tag
(positioning.py:144-157): predict X and Y for every row of the tag from
the first `num_features` columns, then unconditionally compute the MAE
record against the true coordinates. -/
def evalTag (feature_df : List FeatRow) (regX regY : List Cell → ℚ) (num_features : ℕ)
    (t : String) : Except String SummaryRec :=
  let df_tag := feature_df.filter (fun fr => fr.row.tagId == t)
  let Xtest := df_tag.map (fun fr => (rowCells fr).take num_features)
  let yx_pred := Xtest.map regX
  let yy_pred := Xtest.map regY
  (mean_absolute_error (df_tag.map (fun fr => fr.row.true_x)) yx_pred).bind (fun mx =>
    (mean_absolute_error (df_tag.map (fun fr => fr.row.true_y)) yy_pred).bind (fun my =>
      Except.ok ⟨t, round4 mx, round4 my, round4 ((mx + my) / 2)⟩))

/-- The evaluator's loop over tags: an error raised for any tag aborts
the whole evaluation (the source installs no handler). -/
def evalTags (feature_df : List FeatRow) (regX regY : List Cell → ℚ) (num_features : ℕ) :
    List String → Except String (List SummaryRec)
  | [] => Except.ok []
  | t :: ts =>
    (evalTag feature_df regX regY num_features t).bind (fun r =>
      (evalTags feature_df regX regY num_features ts).bind (fun rs =>
        Except.ok (r :: rs)))

/-- `evaluate_position` (positioning.py:132-158): for every distinct tag
(in `numpy.unique` order) predict and compute the MAE summary; the
returned frame holds only the summary records. -/
def evaluate_position (feature_df : List FeatRow) (regX regY : List Cell → ℚ)
    (num_features : ℕ) : Except String (List SummaryRec) :=
  evalTags feature_df regX regY num_features
    (uniqueSorted (feature_df.map (fun fr => fr.row.tagId)))

/-! ## Tag model (src/models.py) and schema (src/db.py) -/

/-- The `Tag` dataclass of src/models.py. -/
structure Tag where
  tag_id : String
  type : String
  true_x : Option ℚ
  true_y : Option ℚ
  pred_x : Option ℚ
  pred_y : Option ℚ
  is_read : Bool
  deriving DecidableEq, Repr

/-- The `Tag` constructor including its `__post_init__` validation
(models.py:21-25): the type must be `ref` or `tar`, and a `ref` tag must
not carry predicted coordinates. Nothing else is validated. -/
def mkTag (tag_id ty : String) (true_x true_y pred_x pred_y : Option ℚ)
    (is_read : Bool) : Except String Tag :=
  if !(ty == "ref" || ty == "tar") then Except.error ("Tag.type must be ref or tar")
  else if ty == "ref" && (pred_x.isSome || pred_y.isSome) then
    Except.error ("Reference tags should not have pred_x or pred_y")
  else Except.ok ⟨tag_id, ty, true_x, true_y, pred_x, pred_y, is_read⟩

/-- The CHECK constraints of the `tag` table (db.py:14-26). -/
def tagSchemaCheck (t : Tag) : Bool :=
  (t.type == "ref" || t.type == "tar") &&
    ((t.type == "ref" && t.pred_x.isNone && t.pred_y.isNone) || t.type == "tar")

/-! ## Repository (`list_tags`, src/repository.py:91-115) -/

/-- `list_tags`: only the exact filter values `ref` and `tar` restrict
the result; any other filter (including no filter) selects every tag. -/
def list_tags (tags : List Tag) (tag_type : Option String) : List Tag :=
  match tag_type with
  | some ty => if ty == "ref" || ty == "tar" then tags.filter (fun t => t.type == ty) else tags
  | none => tags

/-! ## FingerprintAssembler (`load_data_from_db`, positioning.py:13-52) -/

/-- The `Record` dataclass of src/models.py restricted to the columns
`load_data_from_db` reads; antenna ids are the numerals `1..k`. -/
structure Record where
  tagId : String
  antennaId : ℕ
  rc : ℚ
  rssi : ℚ
  read_time : ℕ
  deriving DecidableEq, Repr

/-- One row of the `tag` table as read by `load_data_from_db`. -/
structure TagRow where
  tag_id : String
  true_x : Option ℚ
  true_y : Option ℚ
  deriving DecidableEq, Repr

/-- One cell of the `pivot_table` on `(TagID, read_time) × antenna_id`:
pandas' default `aggfunc` is the mean, so the cell holds the arithmetic
mean of every reading matching the triple, and is unset (NaN) when no
reading matches. -/
def pivotCell (records : List Record) (f : Record → ℚ) (t : String) (s : ℕ) (a : ℕ) :
    Option ℚ :=
  let xs := (records.filter (fun r => r.tagId == t && r.read_time == s && r.antennaId == a)).map f
  if xs.isEmpty then none else some (meanQ xs)

/-- The left merge with the `tag` table on `TagID`. -/
def lookupTag (tags : List TagRow) (t : String) : Option TagRow :=
  tags.find? (fun tr => tr.tag_id == t)

/-- The assembled base-frame row for the key `(t, s)`: pivoted mean
`rssi`/`rc` cells per antenna, merged true coordinates. -/
def assembleRow (k : ℕ) (records : List Record) (tags : List TagRow) (t : String)
    (s : ℕ) : FRow where
  tagId := t
  read := s
  rssi := (List.range k).map (fun i => pivotCell records (fun r => r.rssi) t s (i+1))
  rc := (List.range k).map (fun i => pivotCell records (fun r => r.rc) t s (i+1))
  true_x := (lookupTag tags t).bind (fun tr => tr.true_x)
  true_y := (lookupTag tags t).bind (fun tr => tr.true_y)

/-- Order of the pivot index: by tag id, then timestamp. -/
def keyLE (a b : String × ℕ) : Prop :=
  if a.1 = b.1 then a.2 ≤ b.2 else strLE a.1 b.1 = true

instance : DecidableRel keyLE := fun a b => by
  unfold keyLE; infer_instance

/-- The distinct `(TagID, read_time)` keys of the reading set, in pivot
index order. -/
def pivotKeys (records : List Record) : List (String × ℕ) :=
  ((records.map (fun r => (r.tagId, r.read_time))).insertionSort keyLE).dedup

/-- `load_data_from_db` (positioning.py:13-52) applied to materialized
`record` and `tag` tables: one assembled row per distinct
`(TagID, read_time)` key. -/
def load_data_from_db (k : ℕ) (records : List Record) (tags : List TagRow) : List FRow :=
  (pivotKeys records).map (fun p => assembleRow k records tags p.1 p.2)

/-! ## Helper lemmas -/

theorem getD_map_range {α : Type} (n i : ℕ) (g : ℕ → α) (d : α) (hi : i < n) :
    ((List.range n).map g).getD i d = g i := by
  simp [List.getD_eq_getElem?_getD, List.getElem?_range hi]

theorem mem_uniqueSorted (l : List String) (a : String) : a ∈ uniqueSorted l ↔ a ∈ l := by
  unfold uniqueSorted
  rw [List.mem_dedup]
  exact (List.perm_insertionSort _ l).mem_iff

theorem nodup_uniqueSorted (l : List String) : (uniqueSorted l).Nodup :=
  List.nodup_dedup _

theorem liftStat_eq_none_iff (f : List ℚ → ℚ) (col : List (Option ℚ)) :
    liftStat f col = none ↔ (col = [] ∨ none ∈ col) := by
  unfold liftStat
  split_ifs with h1 h2
  · simp_all [List.isEmpty_iff]
  · have := List.elem_iff.mp h2
    simp_all
  · constructor
    · intro h; cases h
    · intro h
      rcases h with h | h
      · exact absurd h (by simpa [List.isEmpty_iff] using h1)
      · exact absurd (List.elem_iff.mpr h) (by simpa using h2)

theorem liftStat_eq_some (f : List ℚ → ℚ) (col : List (Option ℚ))
    (h : ¬(col = [] ∨ none ∈ col)) :
    liftStat f col = some (round4 (f col.reduceOption)) := by
  push_neg at h
  unfold liftStat
  rw [if_neg (by simpa [List.isEmpty_iff] using h.1),
    if_neg (by simpa [List.elem_iff] using h.2)]

/-! ## Claim C1 -/

/-- A two-row single-antenna, single-tag base frame whose second row has
an unset signal cell. -/
def nanDbase : List FRow :=
  [⟨"T", 0, [some 5], [some 1], none, none⟩, ⟨"T", 1, [none], [some 1], none, none⟩]

/-- C1, counterexample. With warm-up size 2, the warm-up window of tag
`T` holds signal values `5` and unset. Were unset rows excluded from the
statistic, the mean of the signal column would be `5` (the mean of the
single set observation). The extractor instead yields an unset mean for
that column: an unset cell anywhere in the window poisons the whole
statistic, it is not excluded. -/
theorem nan_row_not_excluded :
    ((sliding_window_features 1 nanDbase 2 2).getD 0 default).stats.avg.getD 0 none = none ∧
      ((sliding_window_features 1 nanDbase 2 2).getD 0 default).stats.avg.getD 0 none ≠
        some 5 := by
  constructor
  · rfl
  · intro h
    exact Option.noConfusion (h.symm.trans rfl)

/-- C1, amended. In `sliding_window_features`, every per-window
statistic (mean, min, max, population standard deviation) of a base
column is computed by `windowStats`; the statistic for column `c` is
unset exactly when the window is empty or ANY row of the window is unset
for `c` (unset rows poison the statistic instead of being excluded);
when every row is set, the statistic is the rounded value of the
corresponding function over all the rows. In particular a window that is
entirely unset for a column yields an unset statistic and never a
fabricated zero. -/
theorem windowStats_unset_propagation (k c : ℕ) (block : List FRow) (hc : c < 2 * k) :
    ((windowStats k block).avg.getD c none = none ↔ block = [] ∨ none ∈ colVals c block) ∧
    ((windowStats k block).min.getD c none = none ↔ block = [] ∨ none ∈ colVals c block) ∧
    ((windowStats k block).max.getD c none = none ↔ block = [] ∨ none ∈ colVals c block) ∧
    ((windowStats k block).stddev.getD c none = none ↔ block = [] ∨ none ∈ colVals c block) ∧
    (¬(block = [] ∨ none ∈ colVals c block) →
      (windowStats k block).avg.getD c none
          = some (round4 (meanQ (colVals c block).reduceOption)) ∧
      (windowStats k block).min.getD c none
          = some (round4 (minQ (colVals c block).reduceOption)) ∧
      (windowStats k block).max.getD c none
          = some (round4 (maxQ (colVals c block).reduceOption)) ∧
      (windowStats k block).stddev.getD c none
          = some (round4 (stdQ (colVals c block).reduceOption))) := by
  have hcol : colVals c block = [] ↔ block = [] := by
    unfold colVals
    simp
  unfold windowStats
  rw [getD_map_range _ _ _ _ hc, getD_map_range _ _ _ _ hc, getD_map_range _ _ _ _ hc,
    getD_map_range _ _ _ _ hc]
  refine ⟨?_, ?_, ?_, ?_, ?_⟩
  · rw [liftStat_eq_none_iff, hcol]
  · rw [liftStat_eq_none_iff, hcol]
  · rw [liftStat_eq_none_iff, hcol]
  · rw [liftStat_eq_none_iff, hcol]
  · intro h
    have h2 : ¬(colVals c block = [] ∨ none ∈ colVals c block) := by
      rw [hcol]; exact h
    exact ⟨liftStat_eq_some _ _ h2, liftStat_eq_some _ _ h2,
      liftStat_eq_some _ _ h2, liftStat_eq_some _ _ h2⟩

/-- C1 amended, witness: a concrete fully set two-row window, column 0
of 2 (one antenna): the mean statistic evaluates to the (rounded) mean
of the two signal values. -/
theorem windowStats_unset_propagation_witness :
    (0 < 2 * 1 ∧
      ((windowStats 1 [⟨"T", 0, [some 1], [some 2], none, none⟩,
        ⟨"T", 1, [some 3], [some 2], none, none⟩]).avg.getD 0 none = none ↔
        ([⟨"T", 0, [some 1], [some 2], none, none⟩,
          ⟨"T", 1, [some 3], [some 2], none, none⟩] : List FRow) = [] ∨
          none ∈ colVals 0 [⟨"T", 0, [some 1], [some 2], none, none⟩,
            ⟨"T", 1, [some 3], [some 2], none, none⟩])) :=
  ⟨by decide,
    (windowStats_unset_propagation 1 0
      [⟨"T", 0, [some 1], [some 2], none, none⟩,
        ⟨"T", 1, [some 3], [some 2], none, none⟩] (by decide)).1⟩

/-! ## Claims C3 and C4 -/

/-- C3. In the extractor's per-tag pass, every row with index
`i < min(W0, n)` is assigned one and the same statistic vector: the
column-wise mean/min/max/population-standard-deviation statistics
(`windowStats`) of the fixed warm-up block `rows[0 .. min(W0,n)-1]`
(`rows.take (min W0 n)`). Hence for `n ≥ W0` all rows `0..W0-1` carry
identical feature vectors, and for `n < W0` the single block covers all
`n` rows. -/
theorem tagFeatures_warmup (W0 W k : ℕ) (rows : List FRow) (i : ℕ)
    (hi : i < Nat.min W0 rows.length) :
    (tagFeatures W0 W k rows).getD i default
      = ⟨rows.getD i default, windowStats k (rows.take (Nat.min W0 rows.length))⟩ := by
  have hn : i < rows.length := lt_of_lt_of_le hi (Nat.min_le_right _ _)
  unfold tagFeatures
  rw [getD_map_range _ _ _ _ hn, if_pos hi]

/-- Two concrete chronological rows of one tag. -/
def wRows : List FRow :=
  [⟨"T", 0, [some 1], [some 2], none, none⟩, ⟨"T", 1, [some 3], [some 4], none, none⟩]

/-- C3, witness at `W0 = W = 2`, row 0 of the two-row tag `T`. -/
theorem tagFeatures_warmup_witness :
    0 < Nat.min 2 wRows.length ∧
      (tagFeatures 2 2 1 wRows).getD 0 default
        = ⟨wRows.getD 0 default, windowStats 1 (wRows.take (Nat.min 2 wRows.length))⟩ :=
  ⟨by decide, tagFeatures_warmup 2 2 1 wRows 0 (by decide)⟩

/-- C4. In the extractor's per-tag pass, every row with index
`W0 ≤ i ≤ n-1` is assigned the statistics (`windowStats`) recomputed
directly over exactly its trailing window
`rows[max(0, i-W+1) .. i]` — in ℕ arithmetic the window starts at
`i + 1 - W` (truncated subtraction, which equals `max(0, i-W+1)`) and
has `i + 1 - (i + 1 - W)` rows, i.e. `min(W, i+1)` rows ending at
row `i`. -/
theorem tagFeatures_sliding (W0 W k : ℕ) (rows : List FRow) (i : ℕ)
    (h1 : W0 ≤ i) (h2 : i < rows.length) :
    (tagFeatures W0 W k rows).getD i default
      = ⟨rows.getD i default,
          windowStats k ((rows.drop (i + 1 - W)).take (i + 1 - (i + 1 - W)))⟩ := by
  unfold tagFeatures
  rw [getD_map_range _ _ _ _ h2, if_neg (by rw [Nat.lt_min]; omega)]

/-- Three concrete chronological rows of one tag. -/
def wRows3 : List FRow :=
  [⟨"T", 0, [some 1], [some 2], none, none⟩, ⟨"T", 1, [some 3], [some 4], none, none⟩,
    ⟨"T", 2, [some 5], [some 6], none, none⟩]

/-- C4, witness at `W0 = W = 2`, row 2 of the three-row tag `T`: the
window is rows 1..2. -/
theorem tagFeatures_sliding_witness :
    2 ≤ 2 ∧ 2 < wRows3.length ∧
      (tagFeatures 2 2 1 wRows3).getD 2 default
        = ⟨wRows3.getD 2 default,
            windowStats 1 ((wRows3.drop (2 + 1 - 2)).take (2 + 1 - (2 + 1 - 2)))⟩ :=
  ⟨le_refl 2, by decide, tagFeatures_sliding 2 2 1 wRows3 2 (le_refl 2) (by decide)⟩

/-! ## Claim C5 -/

theorem length_tagFeatures (W0 W k : ℕ) (rows : List FRow) :
    (tagFeatures W0 W k rows).length = rows.length := by
  simp [tagFeatures]

theorem mem_tagFeatures_tagId (W0 W k : ℕ) (rows : List FRow) (p : String)
    (hp : ∀ r ∈ rows, r.tagId = p) :
    ∀ fr ∈ tagFeatures W0 W k rows, fr.row.tagId = p := by
  intro fr hfr
  simp only [tagFeatures, List.mem_map, List.mem_range] at hfr
  obtain ⟨i, hi, hfe⟩ := hfr
  have hmem : rows.getD i default ∈ rows := by
    rw [List.getD_eq_getElem?_getD, List.getElem?_eq_getElem hi]
    exact List.getElem_mem hi
  rw [← hfe]
  split
  · exact hp _ hmem
  · exact hp _ hmem

theorem chunks_filter_length (k W0 W : ℕ) (dbase : List FRow) (t : String) :
    ∀ l : List String, l.Nodup →
      ((((l.map (fun p => tagFeatures W0 W k (dbase.filter (fun r => r.tagId == p)))).flatten).filter
          (fun fr => fr.row.tagId == t)).length
        = if t ∈ l then (dbase.filter (fun r => r.tagId == t)).length else 0) := by
  intro l
  induction l with
  | nil => simp
  | cons p ps ih =>
    intro hnd
    obtain ⟨hp, hps⟩ := List.nodup_cons.mp hnd
    rw [List.map_cons, List.flatten_cons, List.filter_append, List.length_append, ih hps]
    have hall : ∀ fr ∈ tagFeatures W0 W k (dbase.filter (fun r => r.tagId == p)),
        fr.row.tagId = p := by
      refine mem_tagFeatures_tagId _ _ _ _ _ ?_
      intro r hr
      simpa using (List.mem_filter.mp hr).2
    by_cases hpt : p = t
    · subst hpt
      rw [List.filter_eq_self.mpr (by intro a ha; simpa using hall a ha),
        length_tagFeatures]
      simp [hp]
    · rw [List.filter_eq_nil_iff.mpr (by intro a ha hcon; exact hpt ((hall a ha).symm.trans (by simpa using hcon)))]
      simp [Ne.symm hpt, hpt]

/-- C5. For every input and every tag, the extractor emits exactly as
many feature rows for that tag as there are fingerprint rows for that
tag in the input: `sliding_window_features` neither creates nor drops
rows. -/
theorem sliding_window_features_row_count (k : ℕ) (dbase : List FRow) (W0 W : ℕ)
    (t : String) :
    ((sliding_window_features k dbase W0 W).filter (fun fr => fr.row.tagId == t)).length
      = (dbase.filter (fun r => r.tagId == t)).length := by
  unfold sliding_window_features
  rw [((List.perm_insertionSort rowLE _).filter _).length_eq,
    chunks_filter_length k W0 W dbase t _ (nodup_uniqueSorted _)]
  by_cases ht : t ∈ uniqueSorted (dbase.map (fun r => r.tagId))
  · rw [if_pos ht]
  · rw [if_neg ht]
    have hno : ∀ r ∈ dbase, ¬ r.tagId = t := by
      intro r hr he
      exact ht ((mem_uniqueSorted _ _).mpr (he ▸ List.mem_map_of_mem _ hr))
    rw [List.filter_eq_nil_iff.mpr (by intro a ha hcon; exact hno a ha (by simpa using hcon))]
    rfl

/-! ## Claim C6 -/

/-- C6. The final output of `sliding_window_features` is sorted by
timestamp first and tag id second: consecutive-free pairwise order — for
every pair of rows in output order, the earlier one has a smaller
timestamp, or an equal timestamp and a tag id no greater in the
lexicographic string order pandas sorts by. -/
theorem sliding_window_features_sorted (k : ℕ) (dbase : List FRow) (W0 W : ℕ) :
    (sliding_window_features k dbase W0 W).Pairwise
      (fun a b => a.row.read < b.row.read ∨
        (a.row.read = b.row.read ∧ strLE a.row.tagId b.row.tagId = true)) :=
  List.sorted_insertionSort rowLE _

/-! ## Claim C2 -/

theorem mem_take_append {α : Type} (A : List α) (s : α) (rest : List α) :
    ∀ m : ℕ, A.length < m → s ∈ (A ++ s :: rest).take m := by
  induction A with
  | nil =>
    intro m hm
    cases m with
    | zero => omega
    | succ m2 => simp [List.take_succ_cons]
  | cons a A ih =>
    intro m hm
    cases m with
    | zero => omega
    | succ m2 =>
      rw [List.cons_append, List.take_succ_cons]
      exact List.mem_cons_of_mem _ (ih m2 (by simpa using hm))

theorem fit_ok_conditions (X : List (List Cell)) (y : List (Option ℚ))
    (h : fit X y = Except.ok ()) :
    X.isEmpty = false ∧ X.all (fun row => row.all cellNum) = true ∧
      y.all (fun v => v.isSome) = true := by
  unfold fit at h
  split_ifs at h with a b c
  refine ⟨?_, ?_, ?_⟩
  · cases hx : X.isEmpty
    · rfl
    · exact absurd hx a
  · cases hx : X.all (fun row => row.all cellNum)
    · exact absurd (by simp [hx]) b
    · rfl
  · cases hx : y.all (fun v => v.isSome)
    · exact absurd (by simp [hx]) c
    · rfl

/-- C2. `train_rf_models` surfaces an error to its caller whenever the
reference-tag row subset is empty, whenever some reference row lacks a
true coordinate, or whenever `num_features` exceeds the feature-vector
length `L = 10k` (the `iloc` slice then silently clamps and drags the
non-numeric trailing metadata columns — tag id, timestamp — into the
regressor input, which the regressor rejects). `hwf` states every row
carries the `10k`-column feature layout the extractor produces. -/
theorem train_rf_models_config_error (feature_df : List FeatRow) (refs : List String)
    (m k : ℕ) (hwf : ∀ fr ∈ feature_df, (featCells fr).length = 10 * k)
    (hbad : feature_df.filter (fun fr => refs.contains fr.row.tagId) = []
      ∨ (∃ fr ∈ feature_df.filter (fun fr => refs.contains fr.row.tagId),
          fr.row.true_x = none ∨ fr.row.true_y = none)
      ∨ 10 * k < m) :
    ∃ e, train_rf_models feature_df refs m = Except.error e := by
  simp only [train_rf_models]
  set landmarc := feature_df.filter (fun fr => refs.contains fr.row.tagId) with hland
  by_cases hE : landmarc = []
  · refine ⟨"found array with 0 samples", ?_⟩
    rw [hE]
    rfl
  · have hsub : ∀ fr ∈ landmarc, fr ∈ feature_df := by
      intro fr hfr
      exact (List.mem_filter.mp (hland ▸ hfr)).1
    rcases hbad with h | h | h
    · exact absurd h hE
    · -- some reference row lacks a true coordinate
      obtain ⟨fr0, hfr0, hcoord⟩ := h
      cases hfx : fit (landmarc.map (fun fr => (rowCells fr).take m))
          (landmarc.map (fun fr => fr.row.true_x)) with
      | error e => exact ⟨e, rfl⟩
      | ok u =>
        cases u
        obtain ⟨hXe, hXall, hyx⟩ := fit_ok_conditions _ _ hfx
        rcases hcoord with hx | hy
        · -- contradiction: the labels passed the set check
          rw [List.all_eq_true] at hyx
          have := hyx (fr0.row.true_x) (List.mem_map_of_mem _ hfr0)
          rw [hx] at this
          simp at this
        · -- the Y fit fails on the unset label
          refine ⟨"labels contain NaN values", ?_⟩
          have hyyall : (landmarc.map (fun fr => fr.row.true_y)).all
              (fun v => v.isSome) = false := by
            rw [List.all_eq_false]
            exact ⟨fr0.row.true_y, List.mem_map_of_mem _ hfr0, by simp [hy]⟩
          show fit _ _ = _
          unfold fit
          rw [if_neg (by simp [hXe]), if_neg (by simp [hXall]), if_pos (by simp [hyyall])]
    · -- num_features exceeds L
      obtain ⟨fr0, hfr0⟩ := List.exists_mem_of_ne_nil landmarc hE
      have hbadrow : ((rowCells fr0).take m).all cellNum = false := by
        rw [List.all_eq_false]
        refine ⟨Cell.str fr0.row.tagId, ?_, by simp [cellNum]⟩
        unfold rowCells
        refine mem_take_append _ _ _ m ?_
        rw [List.length_map, hwf fr0 (hsub fr0 hfr0)]
        exact h
      refine ⟨"input contains non-numeric or NaN values", ?_⟩
      have hfitx : fit (landmarc.map (fun fr => (rowCells fr).take m))
          (landmarc.map (fun fr => fr.row.true_x))
            = Except.error ("input contains non-numeric or NaN values") := by
        unfold fit
        rw [if_neg (by simp [List.isEmpty_iff, hE]),
          if_pos (by
            simp only [Bool.not_eq_true']
            rw [List.all_eq_false]
            exact ⟨(rowCells fr0).take m, List.mem_map_of_mem _ hfr0, by simp [hbadrow]⟩)]
      rw [hfitx]
      rfl

/-- C2, witness: one reference feature row with a fully set one-antenna
layout (`k = 1`, `L = 10`) but `num_features = 11 > L`; training fails
and the error is surfaced. -/
theorem train_rf_models_config_error_witness :
    (∀ fr ∈ [(⟨⟨"R", 0, [some 1], [some 2], some 3, some 4⟩,
        ⟨[some 1, some 1], [some 1, some 1], [some 1, some 1], [some 0, some 0]⟩⟩ : FeatRow)],
      (featCells fr).length = 10 * 1) ∧
    (10 * 1 < 11 ∧
      ∃ e, train_rf_models
        [(⟨⟨"R", 0, [some 1], [some 2], some 3, some 4⟩,
          ⟨[some 1, some 1], [some 1, some 1], [some 1, some 1], [some 0, some 0]⟩⟩ : FeatRow)] ["R"] 11 = Except.error e) :=
  ⟨by decide, by decide,
    train_rf_models_config_error _ ["R"] 11 1 (by decide) (Or.inr (Or.inr (by decide)))⟩

/-! ## Claim C7 -/

theorem except_bind_ok {ε α β : Type} (a : α) (f : α → Except ε β) :
    (Except.ok a : Except ε α).bind f = f a :=
  rfl

theorem evalTag_ok (feature_df : List FeatRow) (regX regY : List Cell → ℚ) (m : ℕ)
    (t : String) (hmem : t ∈ feature_df.map (fun fr => fr.row.tagId))
    (hcoords : ∀ fr ∈ feature_df, fr.row.true_x ≠ none ∧ fr.row.true_y ≠ none) :
    ∃ r : SummaryRec, evalTag feature_df regX regY m t = Except.ok r ∧ r.tagId = t := by
  obtain ⟨fr1, hfr1, hteq⟩ := List.mem_map.mp hmem
  have hfl : fr1 ∈ feature_df.filter (fun fr => fr.row.tagId == t) :=
    List.mem_filter.mpr ⟨hfr1, by simp [hteq]⟩
  have hdfne : feature_df.filter (fun fr => fr.row.tagId == t) ≠ [] :=
    List.ne_nil_of_mem hfl
  have hsubc : ∀ fr ∈ feature_df.filter (fun fr => fr.row.tagId == t), fr ∈ feature_df :=
    fun fr hfr => (List.mem_filter.mp hfr).1
  have hmae : ∀ (g : FeatRow → Option ℚ) (preds : List ℚ),
      (∀ fr ∈ feature_df, g fr ≠ none) →
      ∃ v, mean_absolute_error
        ((feature_df.filter (fun fr => fr.row.tagId == t)).map g) preds = Except.ok v := by
    intro g preds hg
    unfold mean_absolute_error
    rw [if_neg ?hc, if_neg (by
      intro hcon
      exact hdfne (List.map_eq_nil_iff.mp (List.isEmpty_iff.mp hcon)))]
    · exact ⟨_, rfl⟩
    case hc =>
      intro hcon
      obtain ⟨fr2, hfr2, hg2⟩ := List.mem_map.mp (List.elem_iff.mp hcon)
      exact hg fr2 (hsubc fr2 hfr2) hg2
  obtain ⟨mx, hmx⟩ := hmae (fun fr => fr.row.true_x)
    (((feature_df.filter (fun fr => fr.row.tagId == t)).map
      (fun fr => (rowCells fr).take m)).map regX)
    (fun fr hfr => (hcoords fr hfr).1)
  obtain ⟨my, hmy⟩ := hmae (fun fr => fr.row.true_y)
    (((feature_df.filter (fun fr => fr.row.tagId == t)).map
      (fun fr => (rowCells fr).take m)).map regY)
    (fun fr hfr => (hcoords fr hfr).2)
  refine ⟨⟨t, round4 mx, round4 my, round4 ((mx + my) / 2)⟩, ?_, rfl⟩
  simp only [evalTag, hmx, hmy, except_bind_ok]

theorem evalTags_ok (feature_df : List FeatRow) (regX regY : List Cell → ℚ) (m : ℕ)
    (hcoords : ∀ fr ∈ feature_df, fr.row.true_x ≠ none ∧ fr.row.true_y ≠ none) :
    ∀ ts : List String, (∀ t ∈ ts, t ∈ feature_df.map (fun fr => fr.row.tagId)) →
      ∃ recs, evalTags feature_df regX regY m ts = Except.ok recs ∧
        recs.map (fun r => r.tagId) = ts := by
  intro ts
  induction ts with
  | nil => exact fun _ => ⟨[], rfl, rfl⟩
  | cons t ts ih =>
    intro hts
    obtain ⟨r, hr, hrt⟩ := evalTag_ok feature_df regX regY m t
      (hts t (List.mem_cons_self t ts)) hcoords
    obtain ⟨recs, hrecs, hmapt⟩ := ih (fun p hp => hts p (List.mem_cons_of_mem _ hp))
    refine ⟨r :: recs, ?_, by simp [hrt, hmapt]⟩
    unfold evalTags
    rw [hr, except_bind_ok, hrecs, except_bind_ok]

/-- C7, amended. When every row of the input carries true coordinates,
`evaluate_position` succeeds and returns a per-tag error-summary record
for EVERY distinct tag (not only for those with ground truth — the
summary computation is unconditional in the source); the per-row
predictions computed from the first `num_features` columns are local to
the computation and do not appear in the returned frame. -/
theorem evaluate_position_summary_for_every_tag (feature_df : List FeatRow)
    (regX regY : List Cell → ℚ) (m : ℕ)
    (hcoords : ∀ fr ∈ feature_df, fr.row.true_x ≠ none ∧ fr.row.true_y ≠ none) :
    ∃ recs, evaluate_position feature_df regX regY m = Except.ok recs ∧
      recs.map (fun r => r.tagId)
        = uniqueSorted (feature_df.map (fun fr => fr.row.tagId)) := by
  unfold evaluate_position
  exact evalTags_ok feature_df regX regY m hcoords _
    (fun t ht => (mem_uniqueSorted _ _).mp ht)

/-- A one-row feature frame for a tag with full ground truth. -/
def okDf : List FeatRow :=
  [⟨⟨"T", 0, [some 5], [some 1], some 1, some 2⟩,
    ⟨[some 5, some 1], [some 5, some 1], [some 5, some 1], [some 0, some 0]⟩⟩]

/-- C7 amended, witness: on the concrete one-tag frame with ground
truth, evaluation succeeds with exactly the record for tag `T`. -/
theorem evaluate_position_summary_witness :
    (∀ fr ∈ okDf, fr.row.true_x ≠ none ∧ fr.row.true_y ≠ none) ∧
      ∃ recs, evaluate_position okDf (fun _ => 0) (fun _ => 0) 10 = Except.ok recs ∧
        recs.map (fun r => r.tagId) = uniqueSorted (okDf.map (fun fr => fr.row.tagId)) :=
  ⟨by decide,
    evaluate_position_summary_for_every_tag okDf (fun _ => 0) (fun _ => 0) 10 (by decide)⟩

/-- A one-row feature frame whose single (target) tag has no true
X coordinate. -/
def missingDf : List FeatRow :=
  [⟨⟨"T", 0, [some 5], [some 1], none, some 2⟩,
    ⟨[some 5, some 1], [some 5, some 1], [some 5, some 1], [some 0, some 0]⟩⟩]

/-- C7, counterexample. On a frame whose only tag lacks ground truth,
the claim says the tag receives predictions but no error summary; the
code instead computes the MAE unconditionally for every tag, which
fails on the unset true coordinate, so the whole evaluation errors and
produces neither predictions nor summaries. -/
theorem evaluate_position_missing_truth_errors :
    evaluate_position missingDf (fun _ => 0) (fun _ => 0) 10
      = Except.error ("Input contains NaN") :=
  rfl

/-! ## Claim C8 -/

/-- C8, counterexample. The system admits a `ref` tag that carries NO
true coordinates: the constructor validation accepts it and the schema
CHECK accepts the corresponding row, refuting the half of the invariant
that says a reference tag always carries true coordinates. -/
theorem ref_tag_without_truth_admitted :
    mkTag "a" "ref" none none none none false
        = Except.ok ⟨"a", "ref", none, none, none, none, false⟩ ∧
      tagSchemaCheck ⟨"a", "ref", none, none, none, none, false⟩ = true ∧
      (⟨"a", "ref", none, none, none, none, false⟩ : Tag).true_x = none := by
  refine ⟨rfl, rfl, rfl⟩

/-- C8, amended. Every tag the constructor admits with role `ref`
carries no predicted coordinates (that half of the invariant is
enforced by `__post_init__`); the presence of true coordinates is not
validated anywhere, so it is not part of the enforced invariant. -/
theorem ref_tag_never_predicted (tid ty : String) (tx tyy px py : Option ℚ)
    (ird : Bool) (t : Tag) (h : mkTag tid ty tx tyy px py ird = Except.ok t)
    (href : t.type = "ref") :
    t.pred_x = none ∧ t.pred_y = none ∧ tagSchemaCheck t = true := by
  unfold mkTag at h
  by_cases h1 : (!(ty == "ref" || ty == "tar")) = true
  · rw [if_pos h1] at h
    cases h
  · rw [if_neg h1] at h
    by_cases h2 : (ty == "ref" && (px.isSome || py.isSome)) = true
    · rw [if_pos h2] at h
      cases h
    · rw [if_neg h2] at h
      cases h
      have hty : ty = "ref" := href
      subst hty
      have hor : (px.isSome || py.isSome) = false := by
        cases hor1 : (px.isSome || py.isSome)
        · rfl
        · exact absurd (by simp [hor1]) h2
      have hpx : px = none := by
        cases px
        · rfl
        · simp at hor
      have hpy : py = none := by
        cases py
        · rfl
        · simp at hor
      subst hpx
      subst hpy
      exact ⟨rfl, rfl, rfl⟩

/-- C8 amended, witness: a concrete admitted reference tag with true
coordinates; the part of the invariant the code enforces holds of it. -/
theorem ref_tag_never_predicted_witness :
    (⟨"b", "ref", some 1, some 2, none, none, true⟩ : Tag).pred_x = none ∧
      (⟨"b", "ref", some 1, some 2, none, none, true⟩ : Tag).pred_y = none ∧
      tagSchemaCheck ⟨"b", "ref", some 1, some 2, none, none, true⟩ = true :=
  ref_tag_never_predicted "b" "ref" (some 1) (some 2) none none true _ rfl rfl

/-! ## Claim C9 -/

/-- C9. In the assembler, when more than one reading exists for the
same `(tag, antenna, timestamp)` triple, the assembled row's signal and
read-count cells for that antenna hold the arithmetic mean
(`pivot_table` default aggregation) of the duplicate readings' values,
computed over all matching readings, not any single reading. -/
theorem assembleRow_duplicate_mean (k : ℕ) (records : List Record) (tags : List TagRow)
    (t : String) (s a : ℕ) (ha : a < k)
    (hdup : 2 ≤ (records.filter
      (fun r => r.tagId == t && r.read_time == s && r.antennaId == (a + 1))).length) :
    (assembleRow k records tags t s).rssi.getD a none
        = some (meanQ ((records.filter
            (fun r => r.tagId == t && r.read_time == s && r.antennaId == (a + 1))).map
              (fun r => r.rssi))) ∧
      (assembleRow k records tags t s).rc.getD a none
        = some (meanQ ((records.filter
            (fun r => r.tagId == t && r.read_time == s && r.antennaId == (a + 1))).map
              (fun r => r.rc))) := by
  have hne : ∀ f : Record → ℚ,
      ((records.filter
        (fun r => r.tagId == t && r.read_time == s && r.antennaId == (a + 1))).map f).isEmpty
          = false := by
    intro f
    cases he : ((records.filter
        (fun r => r.tagId == t && r.read_time == s && r.antennaId == (a + 1))).map f).isEmpty
    · rfl
    · rw [List.isEmpty_iff, List.map_eq_nil_iff] at he
      rw [he] at hdup
      simp at hdup
  unfold assembleRow
  constructor
  · rw [getD_map_range _ _ _ _ ha]
    unfold pivotCell
    rw [if_neg (by simp [hne (fun r => r.rssi)])]
  · rw [getD_map_range _ _ _ _ ha]
    unfold pivotCell
    rw [if_neg (by simp [hne (fun r => r.rc)])]

/-- Two duplicate readings of the same `(tag, antenna, timestamp)`
triple with distinct values. -/
def dupRecords : List Record :=
  [⟨"T", 1, 1, 5, 0⟩, ⟨"T", 1, 3, 7, 0⟩]

/-- C9, witness: on the two duplicates with signals 5 and 7 (and
read-counts 1 and 3), the assembled cells hold the means 6 and 2 —
values equal to neither single reading. -/
theorem assembleRow_duplicate_mean_witness :
    (0 < 1 ∧
      2 ≤ (dupRecords.filter
        (fun r => r.tagId == "T" && r.read_time == 0 && r.antennaId == (0 + 1))).length) ∧
      (assembleRow 1 dupRecords [] "T" 0).rssi.getD 0 none
          = some (meanQ ((dupRecords.filter
              (fun r => r.tagId == "T" && r.read_time == 0 && r.antennaId == (0 + 1))).map
                (fun r => r.rssi))) ∧
        (assembleRow 1 dupRecords [] "T" 0).rc.getD 0 none
          = some (meanQ ((dupRecords.filter
              (fun r => r.tagId == "T" && r.read_time == 0 && r.antennaId == (0 + 1))).map
                (fun r => r.rc))) :=
  ⟨⟨by decide, by decide⟩,
    assembleRow_duplicate_mean 1 dupRecords [] "T" 0 0 (by decide) (by decide)⟩

/-! ## Claim C10 -/

/-- C10. `list_tags` called with any role filter other than exactly
`ref` or `tar` — including no filter at all — returns all tags
unchanged (no error, no empty result); only those two exact values
restrict the result. -/
theorem list_tags_other_filter_returns_all (tags : List Tag) (ft : Option String)
    (h1 : ft ≠ some "ref") (h2 : ft ≠ some "tar") :
    list_tags tags ft = tags := by
  cases ft with
  | none => rfl
  | some ty =>
    have hr : ¬ ty = "ref" := fun h => h1 (by rw [h])
    have ht : ¬ ty = "tar" := fun h => h2 (by rw [h])
    simp [list_tags, hr, ht]

/-- C10, witness: a filter value outside `ref`/`tar` leaves a concrete
one-tag list untouched. -/
theorem list_tags_other_filter_witness :
    (some "xyz" ≠ some "ref" ∧ some "xyz" ≠ some "tar") ∧
      list_tags [⟨"a", "tar", none, none, none, none, false⟩] (some "xyz")
        = [⟨"a", "tar", none, none, none, none, false⟩] :=
  ⟨⟨by decide, by decide⟩,
    list_tags_other_filter_returns_all _ (some "xyz") (by decide) (by decide)⟩

end RFID
